import Mathlib

/-!
Verification of the SubNodeSync core against its design description.

The Go sources are shallowly embedded:
* `pkg/util/filelock.go` — the Lock Guard (file-based single-instance lock),
* `pkg/node/node.go` — the Instance Lifecycle Manager,
* `pkg/sync/command.go` / `handlers.go` / `context.go` — the Command Dispatch
  Engine, heartbeat publisher and lifecycle context.

The host filesystem is modelled as an association list from paths to file
data; process liveness (`syscall.Kill(pid, 0)`) is an oracle parameter.
-/

namespace SubNodeSync

/-! ## Decimal PID text

The lock file stores the owning PID as decimal text: it is written with
`fmt.Fprintf(f, "%d", os.Getpid())` and read back with `strconv.Atoi`.
`decimalRepr` models the `%d` formatting of a nonnegative integer and
`goAtoi` models `strconv.Atoi` (optional sign, decimal digits, error on
empty or non-digit input; overflow is irrelevant at PID magnitudes). -/

/-- The decimal digit character for `d` (`d < 10`; clamps at `'9'` like any
total model must, never reached for actual digits). -/
def decDigitChar (d : Nat) : Char :=
  match d with
  | 0 => '0' | 1 => '1' | 2 => '2' | 3 => '3' | 4 => '4'
  | 5 => '5' | 6 => '6' | 7 => '7' | 8 => '8' | _ => '9'

/-- Decimal digit list of `n`, most significant first (model of `%d`). -/
def decimalDigits (n : Nat) : List Char :=
  if _h : n < 10 then [decDigitChar n]
  else decimalDigits (n / 10) ++ [decDigitChar (n % 10)]
decreasing_by exact Nat.div_lt_self (by omega) (by omega)

/-- Go `fmt.Fprintf(_, "%d", n)` for a nonnegative `n`: its decimal text. -/
def decimalRepr (n : Nat) : String :=
  ⟨decimalDigits n⟩

/-- Digit-string parse on a character list: all characters must be decimal
digits and the list nonempty (the digits phase of `strconv.Atoi`). -/
def natDigits? (cs : List Char) : Option Nat :=
  if cs ≠ [] ∧ cs.all (fun c => c.isDigit) then
    some (cs.foldl (fun m c => m * 10 + (c.toNat - 48)) 0)
  else
    none

/-- Model of Go `strconv.Atoi`: optional leading sign, then decimal digits;
`none` on empty input or any non-digit. -/
def goAtoi (s : String) : Option Int :=
  match s.data with
  | [] => none
  | c :: rest =>
      if c = '-' then (natDigits? rest).map (fun n => -(n : Int))
      else if c = '+' then (natDigits? rest).map (fun n => (n : Int))
      else (natDigits? s.data).map (fun n => (n : Int))

theorem decDigitChar_isDigit {d : Nat} (h : d < 10) : (decDigitChar d).isDigit = true := by
  interval_cases d <;> decide

theorem decDigitChar_toNat {d : Nat} (h : d < 10) : (decDigitChar d).toNat = 48 + d := by
  interval_cases d <;> decide

theorem decimalDigits_ne_nil (n : Nat) : decimalDigits n ≠ [] := by
  rw [decimalDigits]
  split
  · simp
  · simp

theorem decimalDigits_all_isDigit (n : Nat) :
    (decimalDigits n).all (fun c => c.isDigit) = true := by
  induction n using Nat.strong_induction_on with
  | _ n ih =>
    rw [decimalDigits]
    split
    · next h => simp [decDigitChar_isDigit h]
    · next h =>
      rw [List.all_append]
      have h1 := ih (n / 10) (Nat.div_lt_self (by omega) (by omega))
      have h2 : (n % 10) < 10 := Nat.mod_lt _ (by omega)
      simp [h1, decDigitChar_isDigit h2]

theorem decimalDigits_foldl (n : Nat) : ∀ a : Nat,
    (decimalDigits n).foldl (fun m c => m * 10 + (c.toNat - 48)) a
      = a * 10 ^ (decimalDigits n).length + n := by
  induction n using Nat.strong_induction_on with
  | _ n ih =>
    intro a
    rw [decimalDigits]
    split
    · next h =>
      simp [List.foldl, decDigitChar_toNat h]
    · next h =>
      have hlt : n / 10 < n := Nat.div_lt_self (by omega) (by omega)
      have hm : (n % 10) < 10 := Nat.mod_lt _ (by omega)
      rw [List.foldl_append, ih (n / 10) hlt a]
      simp [List.foldl, decDigitChar_toNat hm, List.length_append, pow_succ]
      have := Nat.div_add_mod n 10
      ring_nf
      omega

theorem natDigits?_decimalDigits (n : Nat) : natDigits? (decimalDigits n) = some n := by
  unfold natDigits?
  rw [if_pos ⟨decimalDigits_ne_nil n, decimalDigits_all_isDigit n⟩]
  rw [decimalDigits_foldl n 0]
  simp

/-- Go `strconv.Atoi` inverts `%d` formatting of a nonnegative integer. -/
theorem goAtoi_decimalRepr (n : Nat) : goAtoi (decimalRepr n) = some (n : Int) := by
  have hne := decimalDigits_ne_nil n
  have hall := decimalDigits_all_isDigit n
  unfold goAtoi decimalRepr
  match hd : decimalDigits n with
  | [] => exact absurd hd hne
  | c :: rest =>
    have hc : c.isDigit = true := by
      have := hall
      rw [hd] at this
      simp [List.all_cons] at this
      exact this.1
    have hcm : ¬ c = '-' := by
      intro hEq
      rw [hEq] at hc
      exact absurd hc (by decide)
    have hcp : ¬ c = '+' := by
      intro hEq
      rw [hEq] at hc
      exact absurd hc (by decide)
    simp only [hd, if_neg hcm, if_neg hcp]
    have : natDigits? (c :: rest) = some n := by
      rw [← hd]
      exact natDigits?_decimalDigits n
    rw [this]
    simp

/-! ## Filesystem model

The lock directory is modelled as an association list from paths to file
data. A file is either readable with some content, or present but
unreadable (`os.ReadFile` fails on it — permissions and the like); `os.Stat`
succeeds exactly on present files. -/

/-- Data of one file: readable content, or present-but-unreadable. -/
inductive FileData where
  | readable (content : String)
  | unreadable
  deriving DecidableEq

/-- The filesystem (restricted to the lock directory): paths to file data. -/
abbrev FS := List (String × FileData)

/-- Go `os.Stat`/`os.ReadFile` view: the file data at path `p`, if present. -/
def fsGet : FS → String → Option FileData
  | [], _ => none
  | (q, d) :: rest, p => if q = p then some d else fsGet rest p

/-- Go `os.Remove p` (all entries for `p` go away; removing a missing file is
the error the Go code ignores). -/
def fsRemove : FS → String → FS
  | [], _ => []
  | (q, d) :: rest, p => if q = p then fsRemove rest p else (q, d) :: fsRemove rest p

/-- Creating or rewriting the file at `p` with data `d`. -/
def fsWrite (fs : FS) (p : String) (d : FileData) : FS :=
  (p, d) :: fsRemove fs p

theorem fsGet_fsRemove_self (fs : FS) (p : String) : fsGet (fsRemove fs p) p = none := by
  induction fs with
  | nil => rfl
  | cons e rest ih =>
    obtain ⟨q, d⟩ := e
    by_cases h : q = p
    · simp [fsRemove, h, ih]
    · simp [fsRemove, fsGet, h, ih]

theorem fsGet_fsWrite_self (fs : FS) (p : String) (d : FileData) :
    fsGet (fsWrite fs p d) p = some d := by
  simp [fsWrite, fsGet]

theorem fsRemove_fsRemove_self (fs : FS) (p : String) :
    fsRemove (fsRemove fs p) p = fsRemove fs p := by
  induction fs with
  | nil => rfl
  | cons e rest ih =>
    obtain ⟨q, d⟩ := e
    by_cases h : q = p
    · simp [fsRemove, h, ih]
    · simp [fsRemove, h, ih]

theorem fsWrite_fsWrite_self (fs : FS) (p : String) (d d' : FileData) :
    fsWrite (fsWrite fs p d) p d' = fsWrite fs p d' := by
  simp [fsWrite, fsRemove, fsRemove_fsRemove_self]

/-! ## Lock Guard (`pkg/util/filelock.go`)

Ambient process environment: `tmp` models `os.TempDir()`, `win` models
`runtime.GOOS == "windows"`, `live` models the `syscall.Kill(pid, 0) == nil`
probe, `selfPid` models `os.Getpid()`. A returned lock handle is modelled
by its path; the Go pair `(nil, "")` on failure is modelled as `none`. -/

/-- Go `GetLockFilePath`: temp dir joined with `appName + ".lock"`
(`filepath.Join(os.TempDir(), fmt.Sprintf("%s.lock", appName))`). -/
def getLockFilePath (tmp appName : String) : String :=
  tmp ++ "/" ++ appName ++ ".lock"

/-- Go `isProcessRunning`: nonpositive PIDs are never running; on Unix the
kill-zero probe decides; on Windows the code conservatively reports
running. -/
def isProcessRunning (win : Bool) (live : Int → Bool) (pid : Int) : Bool :=
  if pid ≤ 0 then false
  else if !win then live pid
  else true

/-- Go `AcquireApplicationLock`: returns the lock-file path on success
(`(*os.File, string)` with a non-nil handle), `none` on failure
(`(nil, "")`), together with the filesystem after the call. -/
def acquireApplicationLock (tmp : String) (win : Bool) (live : Int → Bool) (selfPid : Nat)
    (appName : String) (fs : FS) : Option String × FS :=
  let lockPath := getLockFilePath tmp appName
  -- `os.Stat` then the stale-lock check
  let afterCheck : Option FS :=
    match fsGet fs lockPath with
    | none => some fs
    | some fd =>
        -- the lock file exists; `os.ReadFile`, parse, probe liveness
        let ownerAlive :=
          match fd with
          | .unreadable => false          -- read error: fall through to removal
          | .readable c =>
              match goAtoi c with
              | none => false             -- PID does not parse: fall through
              | some pid => isProcessRunning win live pid
        if ownerAlive then none           -- another live instance: refuse
        else some (fsRemove fs lockPath)  -- stale or corrupt: delete old record
  match afterCheck with
  | none => (none, fs)
  | some fs1 =>
      -- `os.OpenFile(lockPath, O_CREATE|O_EXCL|O_WRONLY, 0644)`
      if (fsGet fs1 lockPath).isSome then
        (none, fs1)                       -- exclusive create lost a race
      else
        -- exclusive create of an empty file, then `Fprintf "%d" selfPid`
        let fs2 := fsWrite fs1 lockPath (.readable "")
        let fs3 := fsWrite fs2 lockPath (.readable (decimalRepr selfPid))
        (some lockPath, fs3)

/-- Go `FileLock`: the structured handle. The `*os.File` handle is not
modelled beyond its presence — closing it has no filesystem effect. -/
structure FileLock where
  path : String
  deriving DecidableEq

/-- Go `AcquireLock`: wraps `AcquireApplicationLock` into a `FileLock`. -/
def acquireLock (tmp : String) (win : Bool) (live : Int → Bool) (selfPid : Nat)
    (appName : String) (fs : FS) : Option FileLock × FS :=
  match acquireApplicationLock tmp win live selfPid appName fs with
  | (none, fs') => (none, fs')
  | (some p, fs') => (some ⟨p⟩, fs')

/-- Go `ReleaseFileLock`: close the handle (no filesystem effect), then delete
the lock file when the path is nonempty. -/
def releaseFileLock (fs : FS) (lockPath : String) : FS :=
  if lockPath = "" then fs else fsRemove fs lockPath

/-- Go `FileLock.Release` on a possibly-nil receiver: nil is a no-op. -/
def releaseOptLock (l : Option FileLock) (fs : FS) : FS :=
  match l with
  | none => fs
  | some lk => releaseFileLock fs lk.path

/-- Go `IsLocked`: read-only probe; returns `(locked, ownerPid)` plus the
(unchanged) filesystem — the function only calls `os.Stat`/`os.ReadFile`. -/
def isLocked (tmp : String) (win : Bool) (live : Int → Bool)
    (appName : String) (fs : FS) : (Bool × Int) × FS :=
  let lockPath := getLockFilePath tmp appName
  match fsGet fs lockPath with
  | none => ((false, 0), fs)                 -- no lock file
  | some .unreadable => ((true, 0), fs)      -- unreadable: conservatively locked
  | some (.readable c) =>
      match goAtoi c with
      | none => ((false, 0), fs)             -- corrupt record
      | some pid =>
          if isProcessRunning win live pid then ((true, pid), fs)
          else ((false, 0), fs)              -- stale record

/-! ## Small-step model of `AcquireApplicationLock` under concurrency

`AcquireApplicationLock` issues five system calls — `os.Stat`,
`os.ReadFile`, `os.Remove`, `os.OpenFile(O_CREATE|O_EXCL)`,
`fmt.Fprintf` — each of which is atomic, while the whole sequence is not.
Two processes racing on the same application name operate on the same
lock path, so the shared state is the content of that one file. Local
decisions (PID parse, liveness probe) happen between system calls and are
folded into the step that consumed their input. -/

/-- Program counter of one acquiring process, one state per pending
system call of `AcquireApplicationLock`. -/
inductive AcqPc where
  | atStat      -- about to `os.Stat`
  | atRead      -- about to `os.ReadFile`
  | atRemove    -- about to `os.Remove` (record judged stale/corrupt)
  | atCreate    -- about to `os.OpenFile(O_CREATE|O_EXCL|O_WRONLY)`
  | atWrite     -- about to `Fprintf "%d" pid`
  | doneOk      -- returned a handle
  | doneFail    -- returned `(nil, "")`
  deriving DecidableEq

/-- One acquiring process: its PID and where it stands in the call. -/
structure AcqProc where
  pid : Nat
  pc : AcqPc
  deriving DecidableEq

/-- One atomic step of one acquirer against the shared lock file
(`none` = absent, `some c` = present with content `c`); returns the new
file state and process state. Each branch mirrors the corresponding
system call and the local code that follows it in the Go source. -/
def acqStep (win : Bool) (live : Int → Bool) (file : Option String) (p : AcqProc) :
    Option String × AcqProc :=
  match p.pc with
  | .atStat =>
      -- `os.Stat(lockPath)`: decides which branch the code takes
      (file, { p with pc := if file.isSome then .atRead else .atCreate })
  | .atRead =>
      -- `os.ReadFile`, then parse and liveness probe on the value read
      match file with
      | some c =>
          (file, { p with pc :=
            (match goAtoi c with
             | some q => if isProcessRunning win live q then .doneFail else .atRemove
             | none => .atRemove) })
      | none =>
          -- the file vanished between Stat and ReadFile: read error, fall
          -- through to the removal step exactly as the source does
          (file, { p with pc := .atRemove })
  | .atRemove =>
      -- `os.Remove(lockPath)` (result ignored)
      (none, { p with pc := .atCreate })
  | .atCreate =>
      -- exclusive create: fails iff the file exists, else creates it empty
      match file with
      | some _ => (file, { p with pc := .doneFail })
      | none => (some "", { p with pc := .atWrite })
  | .atWrite =>
      -- `Fprintf(f, "%d", pid)`
      (some (decimalRepr p.pid), { p with pc := .doneOk })
  | .doneOk => (file, p)
  | .doneFail => (file, p)

/-- Global state of the two-acquirer race. -/
structure RaceState where
  file : Option String
  procA : AcqProc
  procB : AcqProc
  deriving DecidableEq

/-- Schedule one step: `true` steps process A, `false` steps process B. -/
def raceStep (win : Bool) (live : Int → Bool) (s : RaceState) (who : Bool) : RaceState :=
  if who then
    let (f, a) := acqStep win live s.file s.procA
    { s with file := f, procA := a }
  else
    let (f, b) := acqStep win live s.file s.procB
    { s with file := f, procB := b }

/-- Run a whole schedule of interleaved steps. -/
def raceRun (win : Bool) (live : Int → Bool) (s : RaceState) : List Bool → RaceState
  | [] => s
  | who :: rest => raceRun win live (raceStep win live s who) rest

/-! ## Lifecycle context (`pkg/sync/context.go`) -/

/-- Go `NodeStatus`: the lifecycle status enumeration. -/
inductive NodeStatus where
  | discovered | pending | starting | running | stopping | stopped | error | unknown
  deriving DecidableEq

/-- Go `NodeContext` state: status, registered shutdown hooks (abstract ids,
in registration order), the trace of executed hooks, and whether the
context has been cancelled. -/
structure NodeCtxState where
  nodeName : String
  version : String
  status : NodeStatus
  hooks : List Nat
  executed : List Nat
  cancelled : Bool
  deriving DecidableEq

/-- Go `NewNodeContext`: fresh context in status `starting` with no hooks. -/
def newNodeContext (nodeName version : String) : NodeCtxState :=
  { nodeName := nodeName, version := version, status := .starting,
    hooks := [], executed := [], cancelled := false }

/-- Go `AddShutdownHook`: appends to the hook collection. -/
def addShutdownHook (c : NodeCtxState) (h : Nat) : NodeCtxState :=
  { c with hooks := c.hooks ++ [h] }

/-- Go `NodeContext.Cancel`: sets `stopping` and cancels. -/
def nodeCtxCancel (c : NodeCtxState) : NodeCtxState :=
  { c with status := .stopping, cancelled := true }

/-- The execution order of the hook loop
`for i := len(hooks)-1; i >= 0; i-- { hooks[i]() }`, reading indices
`i-1, i-2, …, 0` downward from the starting index `i`. -/
def execHooksFrom (hooks : List Nat) : Nat → List Nat
  | 0 => []
  | i + 1 =>
      match hooks[i]? with
      | some h => h :: execHooksFrom hooks i
      | none => execHooksFrom hooks i

/-- Go `ExecuteShutdownHooks`: runs every hook (recording the execution order)
and sets the terminal status `stopped`. -/
def executeShutdownHooks (c : NodeCtxState) : NodeCtxState :=
  { c with executed := c.executed ++ execHooksFrom c.hooks c.hooks.length,
           status := .stopped }

theorem execHooksFrom_eq_reverse_take (hooks : List Nat) :
    ∀ i, i ≤ hooks.length → execHooksFrom hooks i = (hooks.take i).reverse := by
  intro i
  induction i with
  | zero => intro _; simp [execHooksFrom]
  | succ i ih =>
    intro hle
    have hi : i < hooks.length := by omega
    have hsome : hooks[i]? = some hooks[i] := List.getElem?_eq_getElem hi
    rw [execHooksFrom, hsome, ih (by omega)]
    rw [List.take_succ, hsome, Option.toList_some, List.reverse_append]
    rfl

/-- The hook loop executes the registered hooks in reverse registration
order. -/
theorem execHooksFrom_length_eq_reverse (hooks : List Nat) :
    execHooksFrom hooks hooks.length = hooks.reverse := by
  rw [execHooksFrom_eq_reverse_take hooks hooks.length (Nat.le_refl _), List.take_length]

/-! ## Command Dispatch Engine (`pkg/sync/command.go`, `handlers.go`) -/

/-- Go `Command`: the inbound control message after JSON decoding. Parameter
values are kept abstract as strings. -/
structure Command where
  command : String
  timestamp : String
  requestId : String
  parameters : List (String × String)
  deriving DecidableEq

/-- Go `CommandResult`: the structured outcome a handler returns. -/
structure CommandResult where
  success : Bool
  message : String
  requestId : String
  deriving DecidableEq

/-- Go `RegisterHandler`: map assignment — a later registration for the same
name shadows the earlier one. -/
def registerHandlerModel (hs : List (String × α)) (name : String) (h : α) :
    List (String × α) :=
  (name, h) :: hs

/-- Handler-registry lookup (`r.handlers[cmd.Command]`): the most recent
registration for the name, if any. -/
def lookupHandler : List (String × α) → String → Option α
  | [], _ => none
  | (n, h) :: rest, name => if n = name then some h else lookupHandler rest name

/-- Observable actions of the dispatch engine on one inbound message. The
`publishedResult` action is in the vocabulary so that its absence is a
statement about the code, which only ever logs. -/
inductive DispatchEffect (α : Type) where
  | logged (tag : String)
  | publishedResult (r : α)
  deriving DecidableEq

/-- What one `handleControlMessage` call did: its observable actions in
order, and the handler it invoked (with that handler's outcome), if any. -/
structure DispatchOutcome (α : Type) where
  effects : List (DispatchEffect α)
  invoked : Option (String × α)
  deriving DecidableEq

/-- Go `CommandReceiver.handleControlMessage`: decode the payload (`decode`
models `json.Unmarshal` into `Command`); on decode failure log and return;
otherwise look the command name up in the registry; a hit runs the handler
and logs its outcome, a miss logs. Nothing is ever published back. -/
def handleControlMessage (decode : String → Option Command)
    (handlers : List (String × (Command → α))) (raw : String) : DispatchOutcome α :=
  match decode raw with
  | none =>
      { effects := [.logged "parse-failure"], invoked := none }
  | some cmd =>
      match lookupHandler handlers cmd.command with
      | some h =>
          let r := h cmd
          { effects := [.logged "received", .logged "handler-outcome"],
            invoked := some (cmd.command, r) }
      | none =>
          { effects := [.logged "received", .logged "no-handler"], invoked := none }

/-- Go `StopHandler.Handle` with the cancel callback abstracted by the exit it
performs (`none` for a plain context cancel): sets `stopping` on the
context when present, invokes the callback, and returns a success result.
The handler itself adds no exit beyond the injected callback's. -/
def stopHandlerHandle (cancelExit : Option Nat) (nodeCtx : Option NodeCtxState)
    (cmd : Command) : Option NodeCtxState × Option Nat × CommandResult :=
  (nodeCtx.map (fun c => { c with status := .stopping }),
   cancelExit,
   { success := true, message := "Shutdown signal sent", requestId := cmd.requestId })

/-! ## Command receiver state and heartbeat (`pkg/sync/command.go`) -/

/-- Go `ReceiverStatus`. -/
inductive ReceiverStatus where
  | stopped | running | error
  deriving DecidableEq

/-- Go `CommandReceiver` runtime state. Note the struct carries no heartbeat
period: the `Config` never reaches it. -/
structure ReceiverState where
  nodeName : String
  instanceID : String
  brokerURL : String
  connected : Bool
  subscribedControl : Bool
  status : ReceiverStatus
  cancelled : Bool
  nodeCtx : NodeCtxState
  deriving DecidableEq

/-- Go `NewCommandReceiverWithInstanceID`. -/
def newCommandReceiverWithInstanceID (nodeName instanceID brokerURL : String) :
    ReceiverState :=
  { nodeName := nodeName, instanceID := instanceID, brokerURL := brokerURL,
    connected := false, subscribedControl := false, status := .stopped,
    cancelled := false, nodeCtx := newNodeContext nodeName "" }

/-- Go `CommandReceiver.Stop`: cancel the receiver context; if connected,
unsubscribe the control topic and disconnect; set the receiver status
`stopped`. The node context is not touched. -/
def receiverStop (r : ReceiverState) : ReceiverState :=
  let r1 := { r with cancelled := true }
  let r2 :=
    if r1.connected then { r1 with subscribedControl := false, connected := false }
    else r1
  { r2 with status := .stopped }

/-- Go `heartbeatLoop` ticker period: `time.NewTicker(30 * time.Second)` — a
literal in the source, taken from no configuration. -/
def heartbeatTickerPeriodSeconds (_r : ReceiverState) : Nat := 30

/-- Go `heartbeatLoop` initial delay: `time.Sleep(1 * time.Second)` before the
first send. -/
def heartbeatInitialDelaySeconds (_r : ReceiverState) : Nat := 1

/-- Time (seconds after loop start) of the `n`-th heartbeat publication:
the first send after the initial delay, then one per ticker tick. -/
def heartbeatFireTimeSeconds (r : ReceiverState) : Nat → Nat
  | 0 => heartbeatInitialDelaySeconds r
  | n + 1 => heartbeatTickerPeriodSeconds r * (n + 1)

/-! ## Instance Lifecycle Manager (`pkg/node/node.go`) -/

/-- Go `Config`: the node configuration surface. -/
structure Config where
  mqttBroker : String
  mqttUsername : String
  mqttPassword : String
  engineEndpoint : String
  heartbeatIntervalSeconds : Nat
  enableFileLock : Bool
  metadata : List (String × String)
  deriving DecidableEq

/-- Go `DefaultConfig` (the broker address resolved from the environment is a
parameter). -/
def defaultConfig (broker : String) : Config :=
  { mqttBroker := broker, mqttUsername := "", mqttPassword := "",
    engineEndpoint := "", heartbeatIntervalSeconds := 30,
    enableFileLock := false, metadata := [] }

/-- Go `GetInstanceID`: `nodeName-hostname-pid`. -/
def getInstanceID (nodeName hostname : String) (pid : Nat) : String :=
  nodeName ++ "-" ++ hostname ++ "-" ++ decimalRepr pid

/-- Go `Instance`: the node instance record. `connected` is the instance's
flag, `mqttConnected` the transport client's own state. -/
structure InstanceModel where
  nodeName : String
  instanceID : String
  hostname : String
  pid : Nat
  connected : Bool
  ctxActive : Bool
  mqttClientPresent : Bool
  mqttConnected : Bool
  receiver : Option ReceiverState
  fileLock : Option FileLock
  config : Config
  deriving DecidableEq

/-- Go `Instance.startCommandReceiver`: builds the receiver from the node
name, instance id and broker URL only — the `Config` is not passed on. -/
def startCommandReceiver (inst : InstanceModel) (brokerURL : String) : ReceiverState :=
  newCommandReceiverWithInstanceID inst.nodeName inst.instanceID brokerURL

/-- The error text of `fmt.Errorf("nodeName is required")`. -/
def nodeNameRequiredMsg : String := "nodeName is required"

/-- The error text of
`fmt.Errorf("另一个 %s 实例已在运行中，无法获取文件锁", nodeName)`. -/
def alreadyRunningMsg (nodeName : String) : String :=
  "另一个 " ++ nodeName ++ " 实例已在运行中，无法获取文件锁"

/-- Outcome of `RegisterWithConfig`: the returned error (`none` = nil),
the instance installed as `currentInstance` (if any), whether the
background reconnect loop was scheduled, and the filesystem after the
call. -/
structure RegisterOutcome where
  err : Option String
  inst : Option InstanceModel
  reconnectLoopStarted : Bool
  fs : FS
  deriving DecidableEq

/-- Go `RegisterWithConfig`. Environment: `tmp`/`win`/`live`/`selfPid` as for
the Lock Guard, `hostname` models `os.Hostname()`, `mqttOk` whether the
initial MQTT connect succeeds (`httpOk` of the best-effort HTTP
registration is ignored by the code and not modelled). Validates the name,
optionally takes the file lock, builds the instance, attempts the
transport connect (failure only schedules the background reconnect loop),
and returns nil. -/
def registerWithConfig (tmp : String) (win : Bool) (live : Int → Bool) (selfPid : Nat)
    (hostname : String) (mqttOk : Bool) (nodeName : String) (config : Config)
    (fs : FS) : RegisterOutcome :=
  if nodeName = "" then
    { err := some nodeNameRequiredMsg, inst := none,
      reconnectLoopStarted := false, fs := fs }
  else
    -- builds the instance once the (optional) lock step has passed
    let proceed : Option FileLock → FS → RegisterOutcome := fun lock fs1 =>
      let brokerURL :=
        if config.mqttBroker = "" then "tcp://127.0.0.1:1883" else config.mqttBroker
      let inst0 : InstanceModel :=
        { nodeName := nodeName,
          instanceID := getInstanceID nodeName hostname selfPid,
          hostname := hostname, pid := selfPid,
          connected := mqttOk, ctxActive := true,
          mqttClientPresent := mqttOk, mqttConnected := mqttOk,
          receiver := none, fileLock := lock, config := config }
      let inst1 :=
        if mqttOk then { inst0 with receiver := some (startCommandReceiver inst0 brokerURL) }
        else inst0
      { err := none, inst := some inst1, reconnectLoopStarted := !mqttOk, fs := fs1 }
    if config.enableFileLock then
      match acquireLock tmp win live selfPid nodeName fs with
      | (none, fs1) =>
          { err := some (alreadyRunningMsg nodeName), inst := none,
            reconnectLoopStarted := false, fs := fs1 }
      | (some lk, fs1) => proceed (some lk) fs1
    else proceed none fs

/-- Go `Instance.Stop`: cancel the context, disconnect the transport client,
stop the command receiver, release the file lock when held. Returns the
stopped instance and the filesystem after the lock release. -/
def instanceStop (inst : InstanceModel) (fs : FS) : InstanceModel × FS :=
  let a := { inst with ctxActive := false }
  let b := if a.mqttClientPresent then { a with mqttConnected := false } else a
  let c := { b with receiver := b.receiver.map receiverStop }
  match c.fileLock with
  | none => (c, fs)
  | some lk => (c, releaseFileLock fs lk.path)

/-- Go `Instance.handleControl`: the control-message callback installed on the
transport client. Returns the instance and filesystem after the call and
the exit code passed to `os.Exit`, when the callback terminates the
process. -/
def handleControl (inst : InstanceModel) (fs : FS) (action : String) :
    (InstanceModel × FS) × Option Nat :=
  if action = "stop" then ((inst, fs), some 0)
  else if action = "restart" then (instanceStop inst fs, some 0)
  else ((inst, fs), none)

/-- The exit performed by the `"stop"` handler callback that
`startCommandReceiver` registers: `func() { log.Printf(…); os.Exit(0) }`. -/
def nodeStopCallbackExit : Option Nat := some 0

/-- Go `IsAnotherInstanceRunning`: delegates to the Lock Guard's `IsLocked`. -/
def isAnotherInstanceRunning (tmp : String) (win : Bool) (live : Int → Bool)
    (nodeName : String) (fs : FS) : (Bool × Int) × FS :=
  isLocked tmp win live nodeName fs

/-! ## Lock Guard lemmas -/

theorem getLockFilePath_ne_empty (tmp appName : String) :
    getLockFilePath tmp appName ≠ "" := by
  intro h
  have hlen := congrArg String.length h
  have h1 : ("/" : String).length = 1 := rfl
  have h5 : (".lock" : String).length = 5 := rfl
  have h0 : ("" : String).length = 0 := rfl
  simp only [getLockFilePath, String.length_append, h1, h5, h0] at hlen
  omega

/-- A successful `AcquireApplicationLock` returns the deterministic lock
path and leaves that path holding the caller's PID in decimal. -/
theorem acquireApplicationLock_success (tmp : String) (win : Bool) (live : Int → Bool)
    (selfPid : Nat) (appName : String) (fs : FS) (p : String) (fs' : FS)
    (h : acquireApplicationLock tmp win live selfPid appName fs = (some p, fs')) :
    p = getLockFilePath tmp appName
    ∧ fsGet fs' (getLockFilePath tmp appName)
        = some (.readable (decimalRepr selfPid)) := by
  simp only [acquireApplicationLock] at h
  split at h
  · exact absurd (congrArg Prod.fst h) (by simp)
  · next fs1 _ =>
    split at h
    · exact absurd (congrArg Prod.fst h) (by simp)
    · have hp : p = getLockFilePath tmp appName := by
        have := congrArg Prod.fst h
        simp at this
        exact this.symm
      have hfs : fs' = fsWrite (fsWrite fs1 (getLockFilePath tmp appName)
          (.readable "")) (getLockFilePath tmp appName)
          (.readable (decimalRepr selfPid)) := by
        have := congrArg Prod.snd h
        simp at this
        exact this.symm
      refine ⟨hp, ?_⟩
      rw [hfs, fsGet_fsWrite_self]

/-- C2: a lock record whose stored PID is not that of a live process
(stale), or whose content does not parse as a PID (corrupt), is deleted by
a subsequent acquire, which succeeds and leaves a freshly created record
holding the caller's PID — no manual cleanup needed. -/
theorem acquire_reclaims_stale_or_corrupt_record
    (tmp : String) (win : Bool) (live : Int → Bool) (selfPid : Nat) (appName : String)
    (fs : FS) (c : String)
    (hrec : fsGet fs (getLockFilePath tmp appName) = some (.readable c))
    (hbad : goAtoi c = none
            ∨ ∃ q, goAtoi c = some q ∧ isProcessRunning win live q = false) :
    acquireApplicationLock tmp win live selfPid appName fs =
      (some (getLockFilePath tmp appName),
       fsWrite (fsRemove fs (getLockFilePath tmp appName))
         (getLockFilePath tmp appName) (.readable (decimalRepr selfPid))) := by
  have hdead : (match goAtoi c with
      | none => false
      | some pid => isProcessRunning win live pid) = false := by
    rcases hbad with h | ⟨q, hq, hrun⟩
    · rw [h]
    · rw [hq]
      exact hrun
  simp only [acquireApplicationLock, hrec, hdead, Bool.false_eq_true, if_false,
    fsGet_fsRemove_self, Option.isSome_none, fsWrite_fsWrite_self]

/-- C2 witness: a corrupt record (content `"oops"`) is reclaimed. -/
theorem acquire_reclaims_stale_or_corrupt_record_witness :
    acquireApplicationLock "/tmp" false (fun _ => false) 7 "svc"
        [(getLockFilePath "/tmp" "svc", .readable "oops")] =
      (some (getLockFilePath "/tmp" "svc"),
       fsWrite (fsRemove [(getLockFilePath "/tmp" "svc", .readable "oops")]
           (getLockFilePath "/tmp" "svc"))
         (getLockFilePath "/tmp" "svc") (.readable (decimalRepr 7))) :=
  acquire_reclaims_stale_or_corrupt_record "/tmp" false (fun _ => false) 7 "svc"
    [(getLockFilePath "/tmp" "svc", .readable "oops")] "oops"
    (by simp [fsGet]) (Or.inl (by decide))

/-- C9: releasing a lock handle acquired for a name and then probing
`IsLocked` on the same name reports not-locked with owner PID 0. -/
theorem release_then_isLocked_not_locked
    (tmp : String) (win : Bool) (live : Int → Bool) (selfPid : Nat) (appName : String)
    (fs : FS) (lk : FileLock) (fs' : FS)
    (hacq : acquireLock tmp win live selfPid appName fs = (some lk, fs')) :
    (isLocked tmp win live appName (releaseOptLock (some lk) fs')).1 = (false, 0) := by
  have hunder : ∃ fs'', acquireApplicationLock tmp win live selfPid appName fs
      = (some lk.path, fs'') := by
    unfold acquireLock at hacq
    split at hacq
    · exact absurd (congrArg Prod.fst hacq) (by simp)
    · next p fs'' heq =>
      have h1 := congrArg Prod.fst hacq
      simp at h1
      exact ⟨fs'', by rw [heq, ← h1]⟩
  obtain ⟨fs'', hraw⟩ := hunder
  have hpath := (acquireApplicationLock_success tmp win live selfPid appName fs
    lk.path fs'' hraw).1
  have hne : getLockFilePath tmp appName ≠ "" := getLockFilePath_ne_empty tmp appName
  simp only [releaseOptLock, releaseFileLock, hpath, if_neg hne]
  simp only [isLocked, fsGet_fsRemove_self]

/-- C9 witness: acquire on an empty lock directory, release, probe. -/
theorem release_then_isLocked_not_locked_witness :
    (isLocked "/tmp" false (fun _ => true) "svc"
      (releaseOptLock (some ⟨getLockFilePath "/tmp" "svc"⟩)
        (fsWrite (fsWrite ([] : FS) (getLockFilePath "/tmp" "svc") (.readable ""))
          (getLockFilePath "/tmp" "svc") (.readable (decimalRepr 7))))).1
      = (false, 0) :=
  release_then_isLocked_not_locked "/tmp" false (fun _ => true) 7 "svc" []
    ⟨getLockFilePath "/tmp" "svc"⟩
    (fsWrite (fsWrite ([] : FS) (getLockFilePath "/tmp" "svc") (.readable ""))
      (getLockFilePath "/tmp" "svc") (.readable (decimalRepr 7)))
    rfl

/-- C10: on a damaged lock record the read-only probe and the acquirer
diverge: an unreadable file makes `IsLocked` report locked with owner PID
0, an unparsable one makes it report not-locked with PID 0, while
`Acquire` reclaims both; and `IsLocked` never touches the filesystem. -/
theorem isLocked_damaged_record_policy
    (tmp : String) (win : Bool) (live : Int → Bool) (selfPid : Nat) (appName : String)
    (fs : FS) :
    ((isLocked tmp win live appName fs).2 = fs)
    ∧ (fsGet fs (getLockFilePath tmp appName) = some .unreadable →
        (isLocked tmp win live appName fs).1 = (true, 0)
        ∧ (acquireApplicationLock tmp win live selfPid appName fs).1
            = some (getLockFilePath tmp appName))
    ∧ (∀ c, fsGet fs (getLockFilePath tmp appName) = some (.readable c) →
        goAtoi c = none →
        (isLocked tmp win live appName fs).1 = (false, 0)
        ∧ (acquireApplicationLock tmp win live selfPid appName fs).1
            = some (getLockFilePath tmp appName)) := by
  refine ⟨?_, ?_, ?_⟩
  · simp only [isLocked]
    rcases fsGet fs (getLockFilePath tmp appName) with _ | fd
    · rfl
    · rcases fd with c | _
      · dsimp only
        rcases goAtoi c with _ | pid
        · rfl
        · by_cases hr : isProcessRunning win live pid = true
          · simp [hr]
          · simp [hr]
      · rfl
  · intro hu
    constructor
    · simp only [isLocked, hu]
    · simp only [acquireApplicationLock, hu, Bool.false_eq_true, if_false,
        fsGet_fsRemove_self, Option.isSome_none]
  · intro c hc hparse
    constructor
    · simp only [isLocked, hc, hparse]
    · simp only [acquireApplicationLock, hc, hparse, Bool.false_eq_true, if_false,
        fsGet_fsRemove_self, Option.isSome_none]

/-- C10 witness: an unreadable record and a corrupt record, probed and
acquired. -/
theorem isLocked_damaged_record_policy_witness :
    ((isLocked "/t" false (fun _ => true) "a"
        [(getLockFilePath "/t" "a", FileData.unreadable)]).1 = (true, 0)
      ∧ (acquireApplicationLock "/t" false (fun _ => true) 9 "a"
          [(getLockFilePath "/t" "a", FileData.unreadable)]).1
          = some (getLockFilePath "/t" "a"))
    ∧ ((isLocked "/t" false (fun _ => true) "a"
        [(getLockFilePath "/t" "a", FileData.readable "zz")]).1 = (false, 0)
      ∧ (acquireApplicationLock "/t" false (fun _ => true) 9 "a"
          [(getLockFilePath "/t" "a", FileData.readable "zz")]).1
          = some (getLockFilePath "/t" "a")) :=
  ⟨(isLocked_damaged_record_policy "/t" false (fun _ => true) 9 "a"
      [(getLockFilePath "/t" "a", FileData.unreadable)]).2.1 (by simp [fsGet]),
   (isLocked_damaged_record_policy "/t" false (fun _ => true) 9 "a"
      [(getLockFilePath "/t" "a", FileData.readable "zz")]).2.2 "zz"
      (by simp [fsGet]) (by decide)⟩

/-- C1 (amended): if the lock record stores the PID of a live process,
`AcquireApplicationLock` fails with a nil handle, empty path and unchanged
filesystem; and of two acquirers running one after the other — each call
completing before the next starts — at most one obtains a handle: the
second fails against the live record the first created. -/
theorem acquire_mutual_exclusion_sequential
    (tmp : String) (win : Bool) (live : Int → Bool) (selfPid : Nat) (appName : String) :
    (∀ (fs : FS) (c : String) (q : Int),
        fsGet fs (getLockFilePath tmp appName) = some (.readable c) →
        goAtoi c = some q →
        isProcessRunning win live q = true →
        acquireApplicationLock tmp win live selfPid appName fs = (none, fs))
    ∧ (∀ (fs fs' : FS) (p : String) (pidB : Nat),
        acquireApplicationLock tmp win live selfPid appName fs = (some p, fs') →
        isProcessRunning win live (selfPid : Int) = true →
        acquireApplicationLock tmp win live pidB appName fs' = (none, fs')) := by
  have busy : ∀ (pidX : Nat) (fs : FS) (c : String) (q : Int),
      fsGet fs (getLockFilePath tmp appName) = some (.readable c) →
      goAtoi c = some q →
      isProcessRunning win live q = true →
      acquireApplicationLock tmp win live pidX appName fs = (none, fs) := by
    intro pidX fs c q hrec hparse hrun
    simp only [acquireApplicationLock, hrec, hparse, hrun, if_true]
  refine ⟨busy selfPid, ?_⟩
  intro fs fs' p pidB hacq hlive
  have hsucc := acquireApplicationLock_success tmp win live selfPid appName fs p fs' hacq
  exact busy pidB fs' (decimalRepr selfPid) (selfPid : Int) hsucc.2
    (goAtoi_decimalRepr selfPid) hlive

/-- C1 witness: a live record blocks an acquire, and after PID 41 wins
from an empty directory, PID 42's subsequent acquire fails. -/
theorem acquire_mutual_exclusion_sequential_witness :
    (acquireApplicationLock "/tmp" false (fun q => decide (q = 41) || decide (q = 77)) 42
        "svc" [(getLockFilePath "/tmp" "svc", .readable "77")]
      = (none, [(getLockFilePath "/tmp" "svc", .readable "77")]))
    ∧ (acquireApplicationLock "/tmp" false (fun q => decide (q = 41) || decide (q = 77)) 42
        "svc"
        (fsWrite (fsWrite ([] : FS) (getLockFilePath "/tmp" "svc") (.readable ""))
          (getLockFilePath "/tmp" "svc") (.readable (decimalRepr 41)))
      = (none,
         fsWrite (fsWrite ([] : FS) (getLockFilePath "/tmp" "svc") (.readable ""))
           (getLockFilePath "/tmp" "svc") (.readable (decimalRepr 41)))) :=
  ⟨(acquire_mutual_exclusion_sequential "/tmp" false
      (fun q => decide (q = 41) || decide (q = 77)) 42 "svc").1
      [(getLockFilePath "/tmp" "svc", .readable "77")] "77" 77
      (by simp [fsGet]) (by decide) (by decide),
   (acquire_mutual_exclusion_sequential "/tmp" false
      (fun q => decide (q = 41) || decide (q = 77)) 41 "svc").2
      [] _ (getLockFilePath "/tmp" "svc") 42 rfl (by decide)⟩

/-- C1 counterexample to the race clause: with a stale record (dead PID
50) on disk, an interleaving of the five system calls of two racing
acquirers (PIDs 100 and 200, both live) ends with BOTH holding handles:
the loser's stale-record `os.Remove` deletes the winner's freshly created
record. Schedule: B stats and reads the stale record; A stats, reads,
removes, creates and writes its own record; then B removes (deleting A's
record), creates and writes. -/
theorem race_two_acquirers_both_succeed :
    (isProcessRunning false (fun q => decide (q = 100) || decide (q = 200)) 100 = true)
    ∧ (isProcessRunning false (fun q => decide (q = 100) || decide (q = 200)) 200 = true)
    ∧ (isProcessRunning false (fun q => decide (q = 100) || decide (q = 200)) 50 = false)
    ∧ (raceRun false (fun q => decide (q = 100) || decide (q = 200))
        { file := some "50",
          procA := { pid := 100, pc := .atStat },
          procB := { pid := 200, pc := .atStat } }
        [false, false, true, true, true, true, true, false, false, false]).procA.pc
        = .doneOk
    ∧ (raceRun false (fun q => decide (q = 100) || decide (q = 200))
        { file := some "50",
          procA := { pid := 100, pc := .atStat },
          procB := { pid := 200, pc := .atStat } }
        [false, false, true, true, true, true, true, false, false, false]).procB.pc
        = .doneOk := by
  refine ⟨by decide, by decide, by decide, ?_, ?_⟩ <;> rfl

/-- C3 counterexample: the busy outcome does not report the owner's PID.
Two lock states whose live owners differ (PID 100 vs PID 200) produce
identical acquisition failures — `(nil, "")` both times — and identical
`RegisterWithConfig` errors, so no caller can learn the owner PID from
the busy outcome. -/
theorem busy_outcome_reports_no_owner_pid :
    (acquireApplicationLock "/tmp" false (fun q => decide (q = 100) || decide (q = 200))
        300 "app" [(getLockFilePath "/tmp" "app", .readable "100")]
      = (none, [(getLockFilePath "/tmp" "app", .readable "100")]))
    ∧ (acquireApplicationLock "/tmp" false (fun q => decide (q = 100) || decide (q = 200))
        300 "app" [(getLockFilePath "/tmp" "app", .readable "200")]
      = (none, [(getLockFilePath "/tmp" "app", .readable "200")]))
    ∧ ((registerWithConfig "/tmp" false (fun q => decide (q = 100) || decide (q = 200))
          300 "host" true "app"
          { defaultConfig "b" with enableFileLock := true }
          [(getLockFilePath "/tmp" "app", .readable "100")]).err
        = (registerWithConfig "/tmp" false (fun q => decide (q = 100) || decide (q = 200))
            300 "host" true "app"
            { defaultConfig "b" with enableFileLock := true }
            [(getLockFilePath "/tmp" "app", .readable "200")]).err) := by
  refine ⟨?_, ?_, ?_⟩ <;> rfl

/-- C3 (amended): a busy acquisition returns only the nil handle and empty
path, and `Register` with the lock enabled fails with an error naming the
application but not the owner PID; the owner PID is reported only by the
separate read-only probe `IsAnotherInstanceRunning`/`IsLocked`. -/
theorem busy_error_names_app_pid_via_probe
    (tmp : String) (win : Bool) (live : Int → Bool) (selfPid : Nat) (hostname : String)
    (mqttOk : Bool) (nodeName : String) (cfg : Config) (fs : FS) (c : String) (q : Int)
    (hname : ¬ nodeName = "")
    (hlock : cfg.enableFileLock = true)
    (hrec : fsGet fs (getLockFilePath tmp nodeName) = some (.readable c))
    (hparse : goAtoi c = some q)
    (hrun : isProcessRunning win live q = true) :
    acquireApplicationLock tmp win live selfPid nodeName fs = (none, fs)
    ∧ (registerWithConfig tmp win live selfPid hostname mqttOk nodeName cfg fs).err
        = some (alreadyRunningMsg nodeName)
    ∧ isAnotherInstanceRunning tmp win live nodeName fs = ((true, q), fs) := by
  have hbusy : acquireApplicationLock tmp win live selfPid nodeName fs = (none, fs) := by
    simp only [acquireApplicationLock, hrec, hparse, hrun, if_true]
  refine ⟨hbusy, ?_, ?_⟩
  · simp only [registerWithConfig, if_neg hname, hlock, if_true, acquireLock, hbusy]
  · simp only [isAnotherInstanceRunning, isLocked, hrec, hparse, hrun, if_true]

/-- C3 witness for the amended claim. -/
theorem busy_error_names_app_pid_via_probe_witness :
    acquireApplicationLock "/t" false (fun q => decide (q = 5)) 6 "n"
        [(getLockFilePath "/t" "n", .readable "5")]
      = (none, [(getLockFilePath "/t" "n", .readable "5")])
    ∧ (registerWithConfig "/t" false (fun q => decide (q = 5)) 6 "h" true "n"
        { defaultConfig "b" with enableFileLock := true }
        [(getLockFilePath "/t" "n", .readable "5")]).err
      = some (alreadyRunningMsg "n")
    ∧ isAnotherInstanceRunning "/t" false (fun q => decide (q = 5)) "n"
        [(getLockFilePath "/t" "n", .readable "5")]
      = ((true, 5), [(getLockFilePath "/t" "n", .readable "5")]) :=
  busy_error_names_app_pid_via_probe "/t" false (fun q => decide (q = 5)) 6 "h" true "n"
    { defaultConfig "b" with enableFileLock := true }
    [(getLockFilePath "/t" "n", .readable "5")] "5" 5
    (by decide) rfl (by simp [fsGet]) (by decide) (by decide)

/-- C4 counterexample: `Instance.Stop` neither executes the registered
shutdown hooks nor moves the status to `stopped`. On an instance whose
context holds hooks `[1, 2]` in status `running`, after `Stop` the
executed-hook trace is still empty and the status still `running`. -/
theorem stop_skips_hooks_and_terminal_status :
    ((instanceStop
        { nodeName := "svc", instanceID := "svc-h-1", hostname := "h", pid := 1,
          connected := true, ctxActive := true, mqttClientPresent := true,
          mqttConnected := true,
          receiver := some
            { nodeName := "svc", instanceID := "svc-h-1", brokerURL := "b",
              connected := true, subscribedControl := true, status := .running,
              cancelled := false,
              nodeCtx :=
                { nodeName := "svc", version := "", status := .running,
                  hooks := [1, 2], executed := [], cancelled := false } },
          fileLock := some ⟨"/tmp/svc.lock"⟩, config := defaultConfig "b" }
        [("/tmp/svc.lock", .readable "1")]).1.receiver.map
          (fun r => (r.nodeCtx.executed, r.nodeCtx.status)))
      = some ([], .running) := by
  rfl

/-- C4 (amended): `Stop` cancels the context, disconnects the transport
client, stops the command receiver, and deletes the lock file when a
handle is held — but it leaves the lifecycle context untouched: shutdown
hooks run in reverse registration order, and the status becomes the
terminal `stopped`, only when `ExecuteShutdownHooks` is called
explicitly. -/
theorem stop_effects_and_executeShutdownHooks_reverse
    (inst : InstanceModel) (fs : FS) :
    (instanceStop inst fs).1.ctxActive = false
    ∧ (inst.mqttClientPresent = true → (instanceStop inst fs).1.mqttConnected = false)
    ∧ (∀ r, inst.receiver = some r →
        (instanceStop inst fs).1.receiver = some (receiverStop r)
        ∧ (receiverStop r).status = .stopped
        ∧ (receiverStop r).cancelled = true
        ∧ (receiverStop r).nodeCtx = r.nodeCtx)
    ∧ (∀ lk, inst.fileLock = some lk → ¬ lk.path = "" →
        fsGet (instanceStop inst fs).2 lk.path = none)
    ∧ (inst.fileLock = none → (instanceStop inst fs).2 = fs)
    ∧ (∀ c : NodeCtxState, executeShutdownHooks c
        = { c with executed := c.executed ++ c.hooks.reverse, status := .stopped }) := by
  refine ⟨?_, ?_, ?_, ?_, ?_, ?_⟩
  · by_cases hm : inst.mqttClientPresent = true <;>
      rcases hfl : inst.fileLock with _ | lk <;>
      simp [instanceStop, hm, hfl]
  · intro hm
    rcases hfl : inst.fileLock with _ | lk <;>
      simp [instanceStop, hm, hfl]
  · intro r hr
    refine ⟨?_, ?_, ?_, ?_⟩
    · by_cases hm : inst.mqttClientPresent = true <;>
        rcases hfl : inst.fileLock with _ | lk <;>
        simp [instanceStop, hm, hfl, hr]
    · by_cases hc : r.connected = true <;> simp [receiverStop, hc]
    · by_cases hc : r.connected = true <;> simp [receiverStop, hc]
    · by_cases hc : r.connected = true <;> simp [receiverStop, hc]
  · intro lk hlk hne
    by_cases hm : inst.mqttClientPresent = true <;>
      simp [instanceStop, hm, hlk, releaseFileLock, hne, fsGet_fsRemove_self]
  · intro hnone
    by_cases hm : inst.mqttClientPresent = true <;>
      simp [instanceStop, hm, hnone]
  · intro c
    simp only [executeShutdownHooks, execHooksFrom_length_eq_reverse]

/-- C4 witness for the amended claim: a concrete instance with a receiver,
a held lock and two hooks. -/
theorem stop_effects_and_executeShutdownHooks_reverse_witness :
    (instanceStop
        { nodeName := "w", instanceID := "w-h-2", hostname := "h", pid := 2,
          connected := true, ctxActive := true, mqttClientPresent := true,
          mqttConnected := true,
          receiver := none, fileLock := some ⟨"/tmp/w.lock"⟩,
          config := defaultConfig "b" }
        [("/tmp/w.lock", .readable "2")]).1.ctxActive = false
    ∧ fsGet (instanceStop
        { nodeName := "w", instanceID := "w-h-2", hostname := "h", pid := 2,
          connected := true, ctxActive := true, mqttClientPresent := true,
          mqttConnected := true,
          receiver := none, fileLock := some ⟨"/tmp/w.lock"⟩,
          config := defaultConfig "b" }
        [("/tmp/w.lock", .readable "2")]).2 "/tmp/w.lock" = none
    ∧ executeShutdownHooks
        { nodeName := "w", version := "", status := .running,
          hooks := [1, 2], executed := [], cancelled := false }
      = { nodeName := "w", version := "", status := .stopped,
          hooks := [1, 2], executed := [2, 1], cancelled := false } :=
  ⟨(stop_effects_and_executeShutdownHooks_reverse
      { nodeName := "w", instanceID := "w-h-2", hostname := "h", pid := 2,
        connected := true, ctxActive := true, mqttClientPresent := true,
        mqttConnected := true,
        receiver := none, fileLock := some ⟨"/tmp/w.lock"⟩,
        config := defaultConfig "b" }
      [("/tmp/w.lock", .readable "2")]).1,
   (stop_effects_and_executeShutdownHooks_reverse
      { nodeName := "w", instanceID := "w-h-2", hostname := "h", pid := 2,
        connected := true, ctxActive := true, mqttClientPresent := true,
        mqttConnected := true,
        receiver := none, fileLock := some ⟨"/tmp/w.lock"⟩,
        config := defaultConfig "b" }
      [("/tmp/w.lock", .readable "2")]).2.2.2.1 ⟨"/tmp/w.lock"⟩ rfl (by decide),
   by
     rw [(stop_effects_and_executeShutdownHooks_reverse
        { nodeName := "w", instanceID := "w-h-2", hostname := "h", pid := 2,
          connected := true, ctxActive := true, mqttClientPresent := true,
          mqttConnected := true,
          receiver := none, fileLock := some ⟨"/tmp/w.lock"⟩,
          config := defaultConfig "b" }
        [("/tmp/w.lock", .readable "2")]).2.2.2.2.2
        { nodeName := "w", version := "", status := .running,
          hooks := [1, 2], executed := [], cancelled := false }]
     rfl⟩

/-- The heartbeat ticker period of the receiver inside a register
outcome's instance, if any. -/
def instReceiverPeriod (out : RegisterOutcome) : Option Nat :=
  out.inst.bind (fun i => i.receiver.map heartbeatTickerPeriodSeconds)

/-- C5: the heartbeat publisher fires every 30 seconds regardless of the
configuration — `heartbeatLoop` hardcodes `time.NewTicker(30 *
time.Second)` and `Config.HeartbeatInterval` never reaches the receiver.
Registering with a configured heartbeat period of 10 seconds still yields
a receiver firing every 30 seconds. -/
theorem heartbeat_period_hardcoded_thirty :
    (∀ (r : ReceiverState) (n : Nat),
        heartbeatFireTimeSeconds r (n + 2) - heartbeatFireTimeSeconds r (n + 1) = 30)
    ∧ ({ defaultConfig "tcp://127.0.0.1:1883"
          with heartbeatIntervalSeconds := 10 : Config }.heartbeatIntervalSeconds = 10)
    ∧ instReceiverPeriod
        (registerWithConfig "/tmp" false (fun _ => false) 42 "host" true "svc"
          { defaultConfig "tcp://127.0.0.1:1883" with heartbeatIntervalSeconds := 10 }
          []) = some 30 := by
  refine ⟨?_, rfl, rfl⟩
  intro r n
  simp only [heartbeatFireTimeSeconds, heartbeatTickerPeriodSeconds]
  omega

/-- C6 counterexample: the core itself terminates the host process — the
control-message callback `Instance.handleControl` installed by the node
package calls `os.Exit(0)` on a `"stop"` message. -/
theorem core_control_callback_exits_process :
    (handleControl
        { nodeName := "svc", instanceID := "svc-h-3", hostname := "h", pid := 3,
          connected := true, ctxActive := true, mqttClientPresent := true,
          mqttConnected := true, receiver := none, fileLock := none,
          config := defaultConfig "b" }
        [] "stop").2 = some 0 := by
  rfl

/-- C6 (amended): process termination on `"stop"`/`"restart"` is decided
inside the core's node package, not left to the embedding application: its
control callback `handleControl` calls `os.Exit(0)` on exactly those two
actions and ignores every other one, and the `"stop"` handler callback it
registers with the dispatch engine also exits — while the sync package's
`StopHandler` itself only sets `stopping` and invokes the injected cancel
callback, exiting exactly when that callback does. -/
theorem process_exit_policy_located_in_node_package
    (inst : InstanceModel) (fs : FS) :
    handleControl inst fs "stop" = ((inst, fs), some 0)
    ∧ handleControl inst fs "restart" = (instanceStop inst fs, some 0)
    ∧ (∀ a, ¬ a = "stop" → ¬ a = "restart" → handleControl inst fs a = ((inst, fs), none))
    ∧ (∀ (cancelExit : Option Nat) (ctx : Option NodeCtxState) (cmd : Command),
        (stopHandlerHandle cancelExit ctx cmd).2.1 = cancelExit
        ∧ (stopHandlerHandle cancelExit ctx cmd).1 = ctx.map (fun c => { c with status := .stopping }))
    ∧ nodeStopCallbackExit = some 0 := by
  refine ⟨rfl, ?_, ?_, ?_, rfl⟩
  · simp [handleControl]
  · intro a h1 h2
    simp [handleControl, h1, h2]
  · intro cancelExit ctx cmd
    exact ⟨rfl, rfl⟩

/-- C6 witness for the amended claim. -/
theorem process_exit_policy_located_in_node_package_witness :
    handleControl
        { nodeName := "n", instanceID := "n-h-4", hostname := "h", pid := 4,
          connected := false, ctxActive := true, mqttClientPresent := false,
          mqttConnected := false, receiver := none, fileLock := none,
          config := defaultConfig "b" }
        [] "status-query" =
      (({ nodeName := "n", instanceID := "n-h-4", hostname := "h", pid := 4,
          connected := false, ctxActive := true, mqttClientPresent := false,
          mqttConnected := false, receiver := none, fileLock := none,
          config := defaultConfig "b" }, []), none) :=
  (process_exit_policy_located_in_node_package
      { nodeName := "n", instanceID := "n-h-4", hostname := "h", pid := 4,
        connected := false, ctxActive := true, mqttClientPresent := false,
        mqttConnected := false, receiver := none, fileLock := none,
        config := defaultConfig "b" }
      []).2.2.1 "status-query" (by decide) (by decide)

/-- C7: `RegisterWithConfig` returns an error exactly when the name is
empty (`nodeName is required`) or the enabled file lock is busy (the
already-running error); the transport connect outcome and everything
after it never surface — on connect failure the call still returns nil
and only schedules the background reconnect loop. -/
theorem register_error_characterization
    (tmp : String) (win : Bool) (live : Int → Bool) (selfPid : Nat) (hostname : String)
    (mqttOk : Bool) (nodeName : String) (cfg : Config) (fs : FS) :
    ((registerWithConfig tmp win live selfPid hostname mqttOk nodeName cfg fs).err
      = (if nodeName = "" then some nodeNameRequiredMsg
         else if cfg.enableFileLock = true
             ∧ (acquireLock tmp win live selfPid nodeName fs).1 = none
         then some (alreadyRunningMsg nodeName)
         else none))
    ∧ ((registerWithConfig tmp win live selfPid hostname mqttOk nodeName cfg fs).reconnectLoopStarted
      = (if (registerWithConfig tmp win live selfPid hostname mqttOk nodeName cfg fs).err = none
         then !mqttOk else false)) := by
  by_cases hname : nodeName = ""
  · simp [registerWithConfig, hname, nodeNameRequiredMsg]
  · by_cases hlock : cfg.enableFileLock = true
    · rcases hacq : acquireLock tmp win live selfPid nodeName fs with ⟨res, fs1⟩
      rcases res with _ | lk
      · constructor
        · simp [registerWithConfig, hname, hlock, hacq, alreadyRunningMsg]
        · simp [registerWithConfig, hname, hlock, hacq, alreadyRunningMsg]
      · constructor
        · simp [registerWithConfig, hname, hlock, hacq]
        · simp [registerWithConfig, hname, hlock, hacq]
    · constructor
      · simp [registerWithConfig, hname, hlock]
      · simp [registerWithConfig, hname, hlock]

/-- C8: the dispatch engine publishes nothing back on any inbound control
message; a payload that fails to decode, and a decoded command with no
registered handler, are dropped without invoking anything; and a handler
is invoked exactly when it is the registered handler for the decoded
command's name. -/
theorem dispatch_drops_bad_input_without_result
    {α : Type} (decode : String → Option Command)
    (handlers : List (String × (Command → α))) (raw : String) :
    (∀ r : α, DispatchEffect.publishedResult r
        ∉ (handleControlMessage decode handlers raw).effects)
    ∧ (decode raw = none → (handleControlMessage decode handlers raw).invoked = none)
    ∧ (∀ cmd, decode raw = some cmd → lookupHandler handlers cmd.command = none →
        (handleControlMessage decode handlers raw).invoked = none)
    ∧ (∀ n r, (handleControlMessage decode handlers raw).invoked = some (n, r) →
        ∃ cmd h, decode raw = some cmd ∧ n = cmd.command
          ∧ lookupHandler handlers cmd.command = some h ∧ r = h cmd) := by
  rcases hdec : decode raw with _ | cmd
  · refine ⟨?_, ?_, ?_, ?_⟩
    · intro r
      simp [handleControlMessage, hdec]
    · intro _
      simp [handleControlMessage, hdec]
    · intro cmd hsome
      exact absurd hsome (by simp)
    · intro n r hinv
      simp [handleControlMessage, hdec] at hinv
  · rcases hlook : lookupHandler handlers cmd.command with _ | h
    · refine ⟨?_, ?_, ?_, ?_⟩
      · intro r
        simp [handleControlMessage, hdec, hlook]
      · intro hnone
        exact absurd hnone (by simp)
      · intro cmd' hsome hlook'
        simp [handleControlMessage, hdec, hlook]
      · intro n r hinv
        simp [handleControlMessage, hdec, hlook] at hinv
    · refine ⟨?_, ?_, ?_, ?_⟩
      · intro r
        simp [handleControlMessage, hdec, hlook]
      · intro hnone
        exact absurd hnone (by simp)
      · intro cmd' hsome hlook'
        have hcc : cmd = cmd' := by
          injection hsome
        subst hcc
        rw [hlook] at hlook'
        exact absurd hlook' (by simp)
      · intro n r hinv
        simp only [handleControlMessage, hdec, hlook] at hinv
        injection hinv with h1
        refine ⟨cmd, h, rfl, ?_, hlook, ?_⟩
        · exact (congrArg Prod.fst h1).symm
        · exact (congrArg Prod.snd h1).symm

/-- C8 witness: an undecodable payload is dropped with nothing invoked and
nothing published. -/
theorem dispatch_drops_bad_input_without_result_witness :
    (DispatchEffect.publishedResult (0 : Nat)
        ∉ (handleControlMessage (fun _ => none) ([] : List (String × (Command → Nat)))
            "garbage").effects)
    ∧ (handleControlMessage (fun _ => none) ([] : List (String × (Command → Nat)))
        "garbage").invoked = none :=
  ⟨(dispatch_drops_bad_input_without_result (fun _ => none)
      ([] : List (String × (Command → Nat))) "garbage").1 0,
   (dispatch_drops_bad_input_without_result (fun _ => none)
      ([] : List (String × (Command → Nat))) "garbage").2.1 rfl⟩

end SubNodeSync
